import Mathlib

namespace VprLegalizer

/-!
# Verification of the VPR AP full legalizer and greedy clusterer

Shallow embedding of the cluster/placement algorithms of
`vpr/src/analytical_place/full_legalizer.cpp` and
`vpr/src/pack/greedy_clusterer.cpp`, together with theorems settling the
specification claims about them.

Identifiers are modelled as plain naturals/integers; the external
`ClusterLegalizer` ("legality oracle") is modelled by records of boolean
decision functions, so that every theorem is quantified over all possible
oracle behaviours unless a claim explicitly depends on a documented oracle
property.
-/

/-- A placed location `t_pl_loc`: (x, y, sub_tile, layer). -/
structure PlLoc where
  x : Int
  y : Int
  subTile : Int
  layer : Int
deriving DecidableEq, Repr

/-- A physical tile location `t_physical_tile_loc`: (x, y, layer). -/
structure TileLoc where
  x : Int
  y : Int
  layer : Int
deriving DecidableEq, Repr

/-- Cluster identifiers (`LegalizationClusterId` / `ClusterBlockId`). -/
abbrev ClusterId := Nat

/-- Molecule identifiers (`PackMoleculeId`). -/
abbrev MolId := Nat

/-- Logical block type / physical tile type identifiers. -/
abbrev BlockType := Nat

/-! ## The placed-location table

`BasicMinDisturbance::loc_to_cluster_id_placed` is a
`std::unordered_map<t_pl_loc, LegalizationClusterId>`.  We embed it as an
association list together with the lookup used by the code
(`find` / `count`).  Insertions in the code only ever happen after the
lookup reported the key absent; the embedding exposes exactly those
operations. -/

/-- The placement table: bindings from placed locations to clusters. -/
abbrev PlacedTable := List (PlLoc × ClusterId)

/-- `loc_to_cluster_id_placed.find(l)` / `.count(l)` as an optional lookup. -/
def lookupLoc (tbl : PlacedTable) (l : PlLoc) : Option ClusterId :=
  (tbl.find? (fun p => p.1 = l)).map Prod.snd

/-- `loc_to_cluster_id_placed.erase(l)` (illegal-cluster cleanup in the
tile-grouped direct pass, full_legalizer.cpp line 799). -/
def eraseLoc (tbl : PlacedTable) (l : PlLoc) : PlacedTable :=
  tbl.filter (fun p => decide (p.1 ≠ l))

/-- Keys of the table are pairwise distinct: the well-formedness invariant
of the `unordered_map` embedding. -/
def keysNodup (tbl : PlacedTable) : Prop :=
  (tbl.map Prod.fst).Nodup

/-! ## `APClusterPlacer::place_cluster` and `place_cluster_reconstruction`

Both functions (full_legalizer.cpp lines 177-219 and 225-268) have the same
guard structure; they only differ in the final placement attempt
(`try_place_macro` vs `try_place_macro_exhaustively`).  All data these
guards consult is collected in one input record; the final attempt is an
abstract boolean together with the table update it would perform. -/

/-- Inputs consulted by the guards of `place_cluster` /
`place_cluster_reconstruction`. -/
structure PlaceClusterInput where
  /-- `is_block_placed(clb_blk_id, block_locs)` -/
  alreadyPlaced : Bool
  /-- `device_ctx.grid.get_physical_type(tile_loc)->sub_tiles.size()` -/
  numSubTiles : Nat
  /-- `is_cluster_constrained(clb_blk_id)` -/
  constrained : Bool
  /-- `cluster_constraints[clb_blk_id].is_loc_in_part_reg(to_loc)` -/
  locInPartReg : Bool
  /-- result of the final `try_place_macro` / `try_place_macro_exhaustively` -/
  tryPlaceMacro : Bool
deriving DecidableEq, Repr

/-- `APClusterPlacer::place_cluster` (and identically
`place_cluster_reconstruction`), full_legalizer.cpp lines 225-268:

```
if (is_block_placed(clb_blk_id, block_locs)) return true;
if (...->sub_tiles.size() == 0) return false;
if (is_cluster_constrained(clb_blk_id)) {
    if (cluster_constraints[clb_blk_id].is_loc_in_part_reg(to_loc))
        return false;
}
return try_place_macro_exhaustively(...);
```
-/
def place_cluster (i : PlaceClusterInput) : Bool :=
  if i.alreadyPlaced then true
  else if i.numSubTiles = 0 then false
  else if i.constrained && i.locInPartReg then false
  else i.tryPlaceMacro

/-- The effect of `place_cluster` on the placement state: every early
`return false` path leaves the state unchanged; only the final
`try_place_macro` call may mutate it (`update` is that call's effect). -/
def place_cluster_effect (i : PlaceClusterInput) (st : PlacedTable)
    (update : PlacedTable → PlacedTable) : Bool × PlacedTable :=
  if i.alreadyPlaced then (true, st)
  else if i.numSubTiles = 0 then (false, st)
  else if i.constrained && i.locInPartReg then (false, st)
  else (i.tryPlaceMacro, update st)

/-! ## `create_new_cluster` (full_legalizer.cpp lines 305-339)

The function walks the candidate block types of the seed molecule's root
model in table order and, for each type, its modes `0 .. num_modes-1`,
probing `cluster_legalizer.start_new_cluster`; the first `BLK_PASSED`
result wins.  If no (type, mode) pair passes, it raises
`VPR_FATAL_ERROR(VPR_ERROR_AP, "Unable to create a cluster for the given
seed molecule")`. -/

/-- The ordered list of (type, mode) pairs probed by `create_new_cluster`:
candidate types in table order, and for each its modes `0 .. numModes-1`.
`cands` pairs each candidate type with its `num_modes`. -/
def candidatePairs (cands : List (BlockType × Nat)) : List (BlockType × Nat) :=
  cands.flatMap (fun tm => (List.range tm.2).map (fun mode => (tm.1, mode)))

/-- `create_new_cluster`: `start` is the oracle's
`start_new_cluster(seed, type, mode)`, returning the new cluster id on
`BLK_PASSED` and `none` otherwise.  Returns the first success, or the
fatal error when every pair fails. -/
def create_new_cluster (start : BlockType → Nat → Option ClusterId)
    (cands : List (BlockType × Nat)) : Except String ClusterId :=
  match (candidatePairs cands).findSome? (fun tm => start tm.1 tm.2) with
  | some cid => .ok cid
  | none => .error "Unable to create a cluster for the given seed molecule"

/-- `create_new_cluster` followed by any later placement work (the
placement stages of the legalizer run only after packing finished):
a fatal error in cluster creation aborts before `placeStage` runs. -/
def packThenPlace {α : Type} (start : BlockType → Nat → Option ClusterId)
    (cands : List (BlockType × Nat)) (placeStage : ClusterId → Except String α) :
    Except String α := do
  let cid ← create_new_cluster start cands
  placeStage cid

/-- The fatal message raised when no candidate (type, mode) pair passes. -/
def archMismatchMsg : String := "Unable to create a cluster for the given seed molecule"

/-! ## The device grid and the relocation search

`BasicMinDisturbance::place_remaining_clusters` (full_legalizer.cpp lines
448-526) searches outward from each unplaced cluster's desired location in
rings of growing Manhattan distance.  The `DeviceGrid` interface it
consumes (dimensions, physical type, root-tile offsets, per-type capacity,
`is_tile_compatible`) is abstracted into a record of functions. -/

/-- The device grid interface consumed by the legalizer. -/
structure Grid where
  width : Int
  height : Int
  tileType : TileLoc → BlockType
  widthOffset : TileLoc → Nat
  heightOffset : TileLoc → Nat
  capacity : BlockType → Nat
  /-- `is_tile_compatible(tile_type, logical_block_type)` -/
  compatible : BlockType → BlockType → Bool

/-- `is_root_tile` (full_legalizer.cpp lines 443-446). -/
def is_root_tile (g : Grid) (t : TileLoc) : Bool :=
  g.widthOffset t = 0 && g.heightOffset t = 0

/-- The integers `lo, lo+1, …, hi` (a C `for (v = lo; v <= hi; ++v)` loop). -/
def intRange (lo hi : Int) : List Int :=
  (List.range (hi + 1 - lo).toNat).map (fun i => lo + i)

/-- The (dx, dy) offsets visited at radius `r`: `dx` from `-r` to `r`
outer, `dy` from `-r` to `r` inner, keeping `|dx| + |dy| == r`
(lines 465-468). -/
def ringOffsets (r : Nat) : List (Int × Int) :=
  (intRange (-(r : Int)) r).flatMap (fun dx =>
    (intRange (-(r : Int)) r).filterMap (fun dy =>
      if dx.natAbs + dy.natAbs = r then some (dx, dy) else none))

/-- The sub-tile loop (lines 486-505): the `is_root_tile` test at the head
of the loop body breaks out before the first sub-tile of a non-root tile
(so a non-root tile yields nothing, also when its capacity is 0); on a
root tile the first sub-tile not bound in the table is taken. -/
def findFreeSubTile (g : Grid) (tbl : PlacedTable) (t : TileLoc) : Option PlLoc :=
  if is_root_tile g t then
    (List.range (g.capacity (g.tileType t))).findSome? (fun st : Nat =>
      if (lookupLoc tbl ⟨t.x, t.y, (st : Int), t.layer⟩).isNone
      then some (⟨t.x, t.y, (st : Int), t.layer⟩ : PlLoc) else none)
  else none

/-- One (dx, dy) candidate of the ring scan (lines 470-505): out-of-bounds
coordinates are skipped, then type-incompatible tiles, then the sub-tile
scan. -/
def tryTileAt (g : Grid) (clusterType : BlockType) (tbl : PlacedTable)
    (x y layer : Int) : Option PlLoc :=
  if x < 0 ∨ y < 0 ∨ x ≥ g.width ∨ y ≥ g.height then none
  else if g.compatible (g.tileType ⟨x, y, layer⟩) clusterType then
    findFreeSubTile g tbl ⟨x, y, layer⟩
  else none

/-- `max_search_radius = std::max(device_grid.width(), device_grid.height())`
(line 457). -/
def max_search_radius (g : Grid) : Nat :=
  max g.width.toNat g.height.toNat

/-- The radius-expanding relocation search (lines 456-517): radii
`0 .. max_search_radius` in order, the ring offsets of each radius in
their fixed order; the first admissible location wins. -/
def relocSearch (g : Grid) (clusterType : BlockType) (tbl : PlacedTable)
    (orig : TileLoc) : Option PlLoc :=
  (List.range (max_search_radius g + 1)).findSome? (fun r =>
    (ringOffsets r).findSome? (fun d =>
      tryTileAt g clusterType tbl (orig.x + d.1) (orig.y + d.2) orig.layer))

/-- Every placed location the search can visit, in visiting order. -/
def relocCandidates (g : Grid) (orig : TileLoc) : List PlLoc :=
  (List.range (max_search_radius g + 1)).flatMap (fun r =>
    (ringOffsets r).flatMap (fun d =>
      (List.range (g.capacity (g.tileType ⟨orig.x + d.1, orig.y + d.2, orig.layer⟩))).map
        (fun st : Nat =>
          (⟨orig.x + d.1, orig.y + d.2, (st : Int), orig.layer⟩ : PlLoc))))

/-- In-bounds test of the search (line 475, negated). -/
def inBounds (g : Grid) (l : PlLoc) : Bool :=
  decide (¬(l.x < 0 ∨ l.y < 0 ∨ l.x ≥ g.width ∨ l.y ≥ g.height))

/-- A candidate the search accepts: in bounds, on a root tile, on a
type-compatible tile, and not already bound. -/
def admissible (g : Grid) (clusterType : BlockType) (tbl : PlacedTable) (l : PlLoc) : Bool :=
  inBounds g l
    && is_root_tile g ⟨l.x, l.y, l.layer⟩
    && g.compatible (g.tileType ⟨l.x, l.y, l.layer⟩) clusterType
    && (lookupLoc tbl l).isNone

/-- Manhattan distance between a placed location and a tile location. -/
def locDist (orig : TileLoc) (l : PlLoc) : Nat :=
  (l.x - orig.x).natAbs + (l.y - orig.y).natAbs

/-- The sub-tile candidates generated for a (radius, offset) pair. -/
def ringBlock (g : Grid) (orig : TileLoc) (r : Nat) : List PlLoc :=
  (ringOffsets r).flatMap (fun d =>
    (List.range (g.capacity (g.tileType ⟨orig.x + d.1, orig.y + d.2, orig.layer⟩))).map
      (fun st : Nat =>
        (⟨orig.x + d.1, orig.y + d.2, (st : Int), orig.layer⟩ : PlLoc)))

/-! ## `place_remaining_clusters` (full_legalizer.cpp lines 448-526)

The outer structure: iterate over (a copy of) the unplaced map's entries;
for each cluster run the relocation search against the current table; on
success bind the found location and drop the cluster from the unplaced
map (erasing the map entry once its vector empties); on failure emit the
debug log and leave the cluster in the map. -/

/-- Process the clusters of one desired location.  Returns the updated
table and the ids that found no admissible site within the full radius. -/
def placeClustersAt (g : Grid) (ctypes : ClusterId → BlockType) (orig : TileLoc) :
    PlacedTable → List ClusterId → PlacedTable × List ClusterId
  | tbl, [] => (tbl, [])
  | tbl, cid :: rest =>
    match relocSearch g (ctypes cid) tbl orig with
    | some l => placeClustersAt g ctypes orig ((l, cid) :: tbl) rest
    | none =>
      let res := placeClustersAt g ctypes orig tbl rest
      (res.1, cid :: res.2)

/-- `place_remaining_clusters`: all entries in order; entries whose
clusters all placed are erased from the map (`cluster_id_to_loc_unplaced.erase`),
the others keep their failed clusters. -/
def place_remaining_clusters (g : Grid) (ctypes : ClusterId → BlockType) :
    PlacedTable → List (TileLoc × List ClusterId) →
      PlacedTable × List (TileLoc × List ClusterId)
  | tbl, [] => (tbl, [])
  | tbl, (orig, cids) :: rest =>
    let resA := placeClustersAt g ctypes orig tbl cids
    let resB := place_remaining_clusters g ctypes resA.1 rest
    (resB.1, if resA.2.isEmpty then resB.2 else (orig, resA.2) :: resB.2)

/-- Total number of clusters held by the unplaced map. -/
def numUnplacedClusters (m : List (TileLoc × List ClusterId)) : Nat :=
  (m.map (fun e => e.2.length)).sum

/-- The tail of `pack_recontruction_pass` (lines 927-936): run
`place_remaining_clusters`; when the unplaced map is non-empty afterwards,
raise `VPR_FATAL_ERROR(VPR_ERROR_AP, "%zu clusters remain unplaced",
cluster_id_to_loc_unplaced.size())` — the `%zu` reported is
`cluster_id_to_loc_unplaced.size()`, the number of map ENTRIES (distinct
tile locations), carried here as the payload of the error. -/
def packPassPlacementOutcome (g : Grid) (ctypes : ClusterId → BlockType)
    (tbl : PlacedTable) (unplaced : List (TileLoc × List ClusterId)) :
    Except Nat PlacedTable :=
  let res := place_remaining_clusters g ctypes tbl unplaced
  if res.2.isEmpty then .ok res.1 else .error res.2.length

/-! ## The tile-grouped direct pass (full_legalizer.cpp lines 728-785)

Per molecule of a tile's group: scan the tile's sub-tiles; at a bound
sub-tile try to join the resident cluster (skipping full clusters), at a
free sub-tile start a new cluster if the tile's physical type accepts the
molecule's logical block type — which `get_molecule_logical_block_type`
(lines 410-440) resolves as the FIRST entry of the candidate-type table.
The external legalizer's per-decision answers are oracle functions. -/

/-- Oracle decisions consumed by the direct pass. -/
structure DirectOracle where
  /-- `has_empty_primitive(cluster_legalizer.get_cluster_pb(c))` -/
  hasEmptySpace : ClusterId → Bool
  /-- `cluster_legalizer.is_molecule_compatible(mol, c)` -/
  molCompatible : MolId → ClusterId → Bool
  /-- `cluster_legalizer.add_mol_to_cluster(mol, c) == BLK_PASSED` -/
  addPasses : MolId → ClusterId → Bool

/-- Outcome of the per-molecule sub-tile scan. -/
inductive DirectResult where
  | addedTo (cid : ClusterId)
  | newCluster (l : PlLoc) (cid : ClusterId)
  | deferred
deriving DecidableEq, Repr

/-- `get_molecule_logical_block_type` (lines 410-440): the FIRST entry of
the molecule's candidate-type table (`candidate_types.front()`), none when
the table is empty. -/
def get_molecule_logical_block_type (cands : List BlockType) : Option BlockType :=
  cands.head?

/-- The sub-tile loop (lines 745-775): `break` before the first sub-tile
of a non-root tile; at a bound sub-tile, skip clusters with no empty
primitive, else try to join (`break` on success, next sub-tile on
failure); at a free sub-tile start a new cluster when the tile type
accepts the molecule's (first-candidate) block type, binding the location.
`none` means the loop ran out without placing. -/
def directScan (g : Grid) (o : DirectOracle) (tile : TileLoc)
    (blockType : BlockType) (mol : MolId) (newId : ClusterId) :
    PlacedTable → List Nat → Option (DirectResult × PlacedTable)
  | _, [] => none
  | tbl, st :: rest =>
    if is_root_tile g tile then
      match lookupLoc tbl ⟨tile.x, tile.y, (st : Int), tile.layer⟩ with
      | some cid =>
        if o.hasEmptySpace cid then
          if o.molCompatible mol cid && o.addPasses mol cid then
            some (.addedTo cid, tbl)
          else directScan g o tile blockType mol newId tbl rest
        else directScan g o tile blockType mol newId tbl rest
      | none =>
        if g.compatible (g.tileType tile) blockType then
          some (.newCluster ⟨tile.x, tile.y, (st : Int), tile.layer⟩ newId,
            (⟨tile.x, tile.y, (st : Int), tile.layer⟩, newId) :: tbl)
        else directScan g o tile blockType mol newId tbl rest
    else none

/-- One molecule of the direct pass (lines 734-785): resolve the block
type (fatal when the candidate table is empty, line 739), scan the
sub-tiles, and defer the molecule to the unclustered pool when nothing
fits.  New-cluster creation is abstracted to the fresh id `newId` (the
internal (type, mode) probing is `create_new_cluster` above). -/
def directPassMolecule (g : Grid) (o : DirectOracle) (tbl : PlacedTable)
    (tile : TileLoc) (cands : List BlockType) (mol : MolId) (newId : ClusterId) :
    Except String (DirectResult × PlacedTable) :=
  match get_molecule_logical_block_type cands with
  | none => .error "Could not determine block type for molecule"
  | some blockType =>
    match directScan g o tile blockType mol newId tbl
        (List.range (g.capacity (g.tileType tile))) with
    | some res => .ok res
    | none => .ok (.deferred, tbl)

/-- "Occupied locations only grow": monotone table extension. -/
def occupiedMono (tbl tbl' : PlacedTable) : Prop :=
  ∀ l, lookupLoc tbl l ≠ none → lookupLoc tbl' l ≠ none

/-! ## The neighbor-search passes (full_legalizer.cpp lines 547-657)

`BasicMinDisturbance::neighbor_cluster_pass` consumes the unclustered
molecules (a list of (molecule, seed tile) pairs plus a per-tile index),
seeding a cluster from each not-yet-clustered molecule, absorbing
neighbors in growing rings, and then finalizing (FULL strategy, or cheap
strategy + passing strict check) or destroying the cluster.  The external
legalizer's decisions are an oracle indexed by the active legalization
strategy (`set_legalization_strategy`). -/

/-- `ClusterLegalizationStrategy`. -/
inductive Strategy where
  | skipIntraLbRoute
  | full
deriving DecidableEq, Repr

/-- Oracle decisions consumed by the neighbor pass; the add/compatibility
answers depend on the active legalization strategy. -/
structure NeighborOracle where
  /-- `is_molecule_compatible(mol, c)` against the cluster's members -/
  molCompatible : Strategy → MolId → List MolId → Bool
  /-- `add_mol_to_cluster(mol, c) == BLK_PASSED` against the members -/
  addPasses : Strategy → MolId → List MolId → Bool
  /-- `check_cluster_legality(c)`: the strict (full intra-lb route) check -/
  checkLegal : List MolId → Bool
  /-- `has_empty_primitive(get_cluster_pb(c))` -/
  hasEmptyPrimitive : List MolId → Bool

/-- `unclustered_block_locs.find(t)`. -/
def locsFind (locs : List (TileLoc × List MolId)) (t : TileLoc) : Option (List MolId) :=
  (locs.find? (fun e => e.1 = t)).map Prod.snd

/-- Replace the molecule list stored at key `t`. -/
def locsSet : List (TileLoc × List MolId) → TileLoc → List MolId →
    List (TileLoc × List MolId)
  | [], _, _ => []
  | e :: rest, t, ms => if e.1 = t then (t, ms) :: rest else e :: locsSet rest t ms

/-- `unclustered_block_locs.erase(t)`. -/
def locsErase (locs : List (TileLoc × List MolId)) (t : TileLoc) :
    List (TileLoc × List MolId) :=
  locs.filter (fun e => decide (e.1 ≠ t))

/-- `unclustered_block_locs[t].push_back(m)` (creates the entry when
absent). -/
def locsPush : List (TileLoc × List MolId) → TileLoc → MolId →
    List (TileLoc × List MolId)
  | [], t, m => [(t, [m])]
  | e :: rest, t, m =>
    if e.1 = t then (t, e.2 ++ [m]) :: rest else e :: locsPush rest t m

/-- The body of `try_cluster_tile` (lines 568-599) over one molecule list:
molecules already clustered in the legalizer, or in the pass's
`clustered_molecules` set, are dropped from the list; a compatible
molecule whose add passes joins the cluster (and both sets) and is
dropped; the rest stay.  Returns (remaining list, members,
clustered_molecules, legalizer-clustered). -/
def tryMolList (o : NeighborOracle) (strat : Strategy) :
    List MolId → List MolId → List MolId → List MolId →
      List MolId × List MolId × List MolId × List MolId
  | [], mem, cm, lc => ([], mem, cm, lc)
  | m :: rest, mem, cm, lc =>
    if lc.contains m then tryMolList o strat rest mem cm lc
    else if cm.contains m then tryMolList o strat rest mem cm lc
    else if o.molCompatible strat m mem && o.addPasses strat m mem then
      tryMolList o strat rest (mem ++ [m]) (m :: cm) (m :: lc)
    else
      let res := tryMolList o strat rest mem cm lc
      (m :: res.1, res.2)

/-- `try_cluster_tile(tile_loc)`: no-op when the tile has no unclustered
molecules; otherwise scan its list, erasing the map entry when the list
empties. -/
def tryClusterTileAt (o : NeighborOracle) (strat : Strategy) (t : TileLoc)
    (locs : List (TileLoc × List MolId)) (mem cm lc : List MolId) :
    List (TileLoc × List MolId) × List MolId × List MolId × List MolId :=
  match locsFind locs t with
  | none => (locs, mem, cm, lc)
  | some mols =>
    let res := tryMolList o strat mols mem cm lc
    (if res.1.isEmpty then locsErase locs t else locsSet locs t res.1, res.2)

/-- The flattened neighbor offsets: rings `1 .. radius` in order, each in
the fixed (dx, dy) loop order of lines 606-608 (identical to the
relocation search's ring loops). -/
def allRingOffsets (radius : Nat) : List (Int × Int) :=
  (List.range radius).flatMap (fun i => ringOffsets (i + 1))

/-- The neighbor-tile loop (lines 605-623): skip tiles with no molecules;
after trying a tile, stop ring expansion (`goto skip_remaining_neighbors`)
once the cluster reports no remaining empty primitive. -/
def neighborScan (o : NeighborOracle) (strat : Strategy) (seed : TileLoc) :
    List (Int × Int) → List (TileLoc × List MolId) → List MolId → List MolId →
      List MolId →
      List (TileLoc × List MolId) × List MolId × List MolId × List MolId
  | [], locs, mem, cm, lc => (locs, mem, cm, lc)
  | d :: rest, locs, mem, cm, lc =>
    if (locsFind locs ⟨seed.x + d.1, seed.y + d.2, seed.layer⟩).isSome then
      let res := tryClusterTileAt o strat ⟨seed.x + d.1, seed.y + d.2, seed.layer⟩
        locs mem cm lc
      if o.hasEmptyPrimitive res.2.1 then
        neighborScan o strat seed rest res.1 res.2.1 res.2.2.1 res.2.2.2
      else res
    else neighborScan o strat seed rest locs mem cm lc

/-- Mutable state of the neighbor pass. -/
structure NbState where
  /-- `unclustered_blocks` -/
  unclusteredBlocks : List (MolId × TileLoc)
  /-- `unclustered_block_locs` -/
  unclusteredLocs : List (TileLoc × List MolId)
  /-- `clustered_molecules` (pass-local set) -/
  clusteredMols : List MolId
  /-- molecules held by live legalizer clusters (`is_mol_clustered`) -/
  legalClustered : List MolId
  /-- clusters recorded into `cluster_id_to_loc_unplaced` /
  `cluster_id_to_loc_desired` and cleaned (members, seed tile) -/
  finalized : List (List MolId × TileLoc)
deriving Repr

/-- One iteration of the pass's seed loop (lines 560-647): skip a seed
already in `clustered_molecules`; else start a cluster from it, absorb the
seed tile then the neighbor rings, and finalize (FULL, or cheap + strict
check passes) or destroy — pushing every member back onto
`unclustered_blocks` and its location list, and removing the members from
both clustered sets. -/
def neighborProcessSeed (o : NeighborOracle) (strat : Strategy) (radius : Nat)
    (seedMol : MolId) (seedLoc : TileLoc) (st : NbState) : NbState :=
  if st.clusteredMols.contains seedMol then st
  else
    let r₁ := tryClusterTileAt o strat seedLoc st.unclusteredLocs [seedMol]
      (seedMol :: st.clusteredMols) (seedMol :: st.legalClustered)
    let r₂ := neighborScan o strat seedLoc (allRingOffsets radius)
      r₁.1 r₁.2.1 r₁.2.2.1 r₁.2.2.2
    match strat with
    | .full =>
      ⟨st.unclusteredBlocks, r₂.1, r₂.2.2.1, r₂.2.2.2,
        (r₂.2.1, seedLoc) :: st.finalized⟩
    | .skipIntraLbRoute =>
      if o.checkLegal r₂.2.1 then
        ⟨st.unclusteredBlocks, r₂.1, r₂.2.2.1, r₂.2.2.2,
          (r₂.2.1, seedLoc) :: st.finalized⟩
      else
        ⟨st.unclusteredBlocks ++ r₂.2.1.map (fun m => (m, seedLoc)),
          r₂.2.1.foldl (fun ls m => locsPush ls seedLoc m) r₂.1,
          r₂.2.1.foldl (fun s m => s.erase m) r₂.2.2.1,
          r₂.2.1.foldl (fun s m => s.erase m) r₂.2.2.2,
          st.finalized⟩

/-- The seed loop over the pass-start copy of `unclustered_blocks`,
followed by the final cleanup (lines 650-653) that drops every clustered
molecule's entries from `unclustered_blocks`. -/
def neighborPassLoop (o : NeighborOracle) (strat : Strategy) (radius : Nat) :
    NbState → List (MolId × TileLoc) → NbState
  | st, [] =>
    { st with unclusteredBlocks :=
        st.unclusteredBlocks.filter (fun p => !st.clusteredMols.contains p.1) }
  | st, (m, t) :: rest =>
    neighborPassLoop o strat radius (neighborProcessSeed o strat radius m t st) rest

/-- `neighbor_cluster_pass`: `clustered_molecules` starts empty (line
557), the seed loop walks a copy of `unclustered_blocks` (line 559). -/
def neighbor_cluster_pass (o : NeighborOracle) (strat : Strategy) (radius : Nat)
    (ub : List (MolId × TileLoc)) (locs : List (TileLoc × List MolId))
    (lc : List MolId) : NbState :=
  neighborPassLoop o strat radius ⟨ub, locs, [], lc, []⟩ ub

/-! ## The greedy clusterer's per-seed two-tier loop
(greedy_clusterer.cpp lines 191-353)

For each seed the strategy array `[SKIP_INTRA_LB_ROUTE, FULL]` is walked,
breaking once a cluster is legal.  Growing a cluster
(`start_new_cluster` + the `try_fill_cluster` loop) is abstracted as an
oracle returning the grown member list and the chosen block type per
strategy; under FULL the cluster counts as legal without a final check
(lines 321-324), under SKIP it is checked (line 329).  An illegal cluster
rolls back the per-type usage counter and the cluster count
(lines 346-348) and is destroyed (members return to the pool). -/

/-- Oracle abstraction of cluster growth in the greedy clusterer. -/
structure GreedyOracle where
  /-- members of the cluster grown from the seed under a strategy -/
  growCluster : Strategy → MolId → List MolId
  /-- block type chosen by `start_new_cluster` under a strategy -/
  clusterType : Strategy → MolId → BlockType
  /-- `check_cluster_legality` -/
  strictLegal : List MolId → Bool

/-- Counters and outputs of `do_clustering` touched by the per-seed loop. -/
structure GreedyState where
  /-- `num_used_type_instances` -/
  usedType : BlockType → Int
  /-- `total_clb_num` -/
  totalClb : Int
  /-- clusters stored and cleaned (`store_cluster_info_and_free` +
  `clean_cluster`) -/
  finalized : List (List MolId)
  /-- molecules held by live legalizer clusters -/
  clusteredMols : List MolId

/-- Pointwise counter update. -/
def bump (f : BlockType → Int) (t : BlockType) (d : Int) : BlockType → Int :=
  fun x => if x = t then f x + d else f x

/-- Modelled from the spec: the `ClusterLegalizer` itself is code of this
repository that is not under `src/` (only its callers are).  Per spec
§4.2/§4.3 ("every addition is strictly checked" under the strict tier)
and the caller's comment (greedy_clusterer.cpp lines 321-324, "If the
legalizer fully legalized for every molecule added, the cluster should be
legal"), under the FULL strategy a successful start yields a strictly
legal singleton cluster and a successful add yields a strictly legal
grown cluster. -/
def FullStrategySound (o : NeighborOracle) : Prop :=
  (∀ s, o.checkLegal [s] = true)
  ∧ (∀ s ms, o.addPasses .full s ms = true → o.checkLegal (ms ++ [s]) = true)

/-- Modelled from the spec: same contract for the greedy clusterer's
growth abstraction — a cluster grown entirely under the FULL strategy
(where `start_new_cluster` and every `try_fill_cluster` addition are
strictly checked by the `ClusterLegalizer`, not under `src/`) passes the
strict legality check. -/
def GreedyFullSound (o : GreedyOracle) : Prop :=
  ∀ s, o.strictLegal (o.growCluster .full s) = true

/-- One seed of `do_clustering` (lines 191-353): grow under SKIP; if the
strict check passes, finalize; else roll the counters back
(`num_used_type_instances[type]--; total_clb_num--`), destroy, and regrow
from the same seed under FULL, which finalizes without a further check.
Returns the new state and the trace of (strategy, members) attempts. -/
def greedyProcessSeed (o : GreedyOracle) (st : GreedyState) (seed : MolId) :
    GreedyState × List (Strategy × List MolId) :=
  let memS := o.growCluster .skipIntraLbRoute seed
  let tyS := o.clusterType .skipIntraLbRoute seed
  if o.strictLegal memS then
    (⟨bump st.usedType tyS 1, st.totalClb + 1, memS :: st.finalized,
      st.clusteredMols ++ memS⟩,
     [(.skipIntraLbRoute, memS)])
  else
    let memF := o.growCluster .full seed
    let tyF := o.clusterType .full seed
    (⟨bump (bump (bump st.usedType tyS 1) tyS (-1)) tyF 1,
      st.totalClb + 1 - 1 + 1, memF :: st.finalized, st.clusteredMols ++ memF⟩,
     [(.skipIntraLbRoute, memS), (.full, memF)])

/-! ## The post-pass clustering validity check
(full_legalizer.cpp lines 998-1012)

After all reconstruction passes, `BasicMinDisturbance::legalize` walks
every molecule's valid atoms and asserts
`VTR_ASSERT(cluser_id.is_valid())` on `get_atom_cluster(atom)` — an atom
left unclustered aborts the run before any packing output or placement is
produced. -/

/-- The message of the failed `VTR_ASSERT` on an invalid cluster id. -/
def assertMsg : String := "VTR_ASSERT failure: invalid cluster id for atom"

/-- The `atom_to_legalization_map` loop over the flattened valid atoms:
the first atom with no cluster trips the assertion. -/
def atomToLegalizationMap (atomCluster : Nat → Option ClusterId) :
    List Nat → Except String (List (Nat × ClusterId))
  | [] => .ok []
  | a :: rest =>
    match atomCluster a with
    | none => .error assertMsg
    | some cid =>
      match atomToLegalizationMap atomCluster rest with
      | .ok m => .ok ((a, cid) :: m)
      | .error e => .error e

/-- The check over all molecules (each given by its list of valid atoms),
in iteration order. -/
def legalizeClusterCheck (atomCluster : Nat → Option ClusterId)
    (mols : List (List Nat)) : Except String (List (Nat × ClusterId)) :=
  atomToLegalizationMap atomCluster (mols.flatMap id)

/-! ## Concrete instances used to evaluate the embedding -/

/-- A 1×1 device whose single tile accepts every cluster type. -/
def gAll : Grid :=
  ⟨1, 1, fun _ => 0, fun _ => 0, fun _ => 0, fun _ => 1, fun _ _ => true⟩

/-- A 1×1 device whose single tile accepts no cluster type. -/
def gNone : Grid :=
  ⟨1, 1, fun _ => 0, fun _ => 0, fun _ => 0, fun _ => 1, fun _ _ => false⟩

/-- A 1×1 device whose tile accepts only logical block type 1. -/
def gSecond : Grid :=
  ⟨1, 1, fun _ => 0, fun _ => 0, fun _ => 0, fun _ => 1, fun _ bt => bt == 1⟩

/-- A direct-pass oracle that accepts everything. -/
def oYes : DirectOracle :=
  ⟨fun _ => true, fun _ _ => true, fun _ _ => true⟩

/-- A neighbor-pass oracle that accepts every add but fails every
legality check. -/
def oReject : NeighborOracle :=
  ⟨fun _ _ _ => true, fun _ _ _ => true, fun _ => false, fun _ => true⟩

/-- A neighbor-pass oracle that accepts everything. -/
def oAccept : NeighborOracle :=
  ⟨fun _ _ _ => true, fun _ _ _ => true, fun _ => true, fun _ => true⟩

/-- A greedy-growth oracle: each cluster is just its seed, every cluster
strictly legal. -/
def gOrcl : GreedyOracle :=
  ⟨fun _ m => [m], fun _ _ => 0, fun _ => true⟩

/-- The empty greedy clusterer state. -/
def gSt0 : GreedyState :=
  ⟨fun _ => 0, 0, [], []⟩

theorem create_new_cluster_ok_iff (start : BlockType → Nat → Option ClusterId)
    (cands : List (BlockType × Nat)) (cid : ClusterId) :
    create_new_cluster start cands = .ok cid ↔
      (candidatePairs cands).findSome? (fun tm => start tm.1 tm.2) = some cid := by
  unfold create_new_cluster
  cases h : (candidatePairs cands).findSome? (fun tm => start tm.1 tm.2) <;>
    simp [h]

theorem create_new_cluster_error_iff (start : BlockType → Nat → Option ClusterId)
    (cands : List (BlockType × Nat)) :
    create_new_cluster start cands = .error archMismatchMsg ↔
      (candidatePairs cands).findSome? (fun tm => start tm.1 tm.2) = none := by
  unfold create_new_cluster
  cases h : (candidatePairs cands).findSome? (fun tm => start tm.1 tm.2) <;>
    simp [h, archMismatchMsg]

theorem findSome?_flatMap (l : List α) (f : α → List β) (g : β → Option γ) :
    (l.flatMap f).findSome? g = l.findSome? (fun a => (f a).findSome? g) := by
  induction l with
  | nil => rfl
  | cons a t ih =>
    rw [List.flatMap_cons, List.findSome?_append, List.findSome?_cons]
    cases h : (f a).findSome? g with
    | some b => simp [h]
    | none => simp [h, ih]

theorem find?_flatMap (l : List α) (f : α → List β) (p : β → Bool) :
    (l.flatMap f).find? p = l.findSome? (fun a => (f a).find? p) := by
  induction l with
  | nil => rfl
  | cons a t ih =>
    rw [List.flatMap_cons, List.find?_append, List.findSome?_cons]
    cases h : (f a).find? p with
    | some b => simp [h]
    | none => simp [h, ih]

theorem findSome?_eq_find?_map (f : α → β) (p : β → Bool) (l : List α) :
    l.findSome? (fun a => if p (f a) then some (f a) else none) = (l.map f).find? p := by
  induction l with
  | nil => rfl
  | cons a t ih =>
    rw [List.map_cons, List.findSome?_cons, List.find?_cons]
    cases h : p (f a) <;> simp [h, ih]

theorem find?_congr_mem {l : List α} {p q : α → Bool} (h : ∀ a ∈ l, p a = q a) :
    l.find? p = l.find? q := by
  induction l with
  | nil => rfl
  | cons a t ih =>
    rw [List.find?_cons, List.find?_cons, h a (List.mem_cons_self a t)]
    cases q a with
    | true => rfl
    | false => exact ih (fun b hb => h b (List.mem_cons_of_mem a hb))

/-- Each (dx, dy) offset of `ringOffsets r` is at Manhattan distance
exactly `r`. -/
theorem mem_ringOffsets {r : Nat} {d : Int × Int} (h : d ∈ ringOffsets r) :
    d.1.natAbs + d.2.natAbs = r := by
  simp only [ringOffsets, List.mem_flatMap, List.mem_filterMap] at h
  obtain ⟨dx, _, dy, _, hif⟩ := h
  by_cases hc : dx.natAbs + dy.natAbs = r
  · rw [if_pos hc] at hif
    cases hif
    exact hc
  · rw [if_neg hc] at hif
    cases hif

theorem relocCandidates_eq_flatMap_ringBlock (g : Grid) (orig : TileLoc) :
    relocCandidates g orig =
      (List.range (max_search_radius g + 1)).flatMap (ringBlock g orig) := rfl

/-- Every candidate of radius `r` lies at Manhattan distance exactly `r`
from the desired location. -/
theorem mem_ringBlock_dist {g : Grid} {orig : TileLoc} {r : Nat} {l : PlLoc}
    (h : l ∈ ringBlock g orig r) : locDist orig l = r := by
  simp only [ringBlock, List.mem_flatMap, List.mem_map] at h
  obtain ⟨d, hd, st, _, rfl⟩ := h
  have := mem_ringOffsets hd
  simp only [locDist]
  omega

/-- The per-tile scan agrees with filtering the tile's sub-tile candidates
through the full admissibility predicate. -/
theorem tryTileAt_eq_find? (g : Grid) (ct : BlockType) (tbl : PlacedTable)
    (x y layer : Int) :
    tryTileAt g ct tbl x y layer =
      ((List.range (g.capacity (g.tileType ⟨x, y, layer⟩))).map (fun st : Nat =>
        (⟨x, y, (st : Int), layer⟩ : PlLoc))).find? (admissible g ct tbl) := by
  by_cases hb : x < 0 ∨ y < 0 ∨ x ≥ g.width ∨ y ≥ g.height
  · rw [tryTileAt, if_pos hb, Eq.comm, List.find?_eq_none]
    intro l hl
    simp only [List.mem_map] at hl
    obtain ⟨st, _, rfl⟩ := hl
    simp [admissible, inBounds, hb]
  · rw [tryTileAt, if_neg hb]
    by_cases hcomp : g.compatible (g.tileType ⟨x, y, layer⟩) ct = true
    · rw [if_pos hcomp, findFreeSubTile]
      by_cases hroot : is_root_tile g ⟨x, y, layer⟩ = true
      · rw [if_pos hroot]
        show (List.range (g.capacity (g.tileType ⟨x, y, layer⟩))).findSome?
            (fun st : Nat =>
              if (fun l => (lookupLoc tbl l).isNone)
                  ((fun st : Nat => (⟨x, y, (st : Int), layer⟩ : PlLoc)) st) = true
              then some ((fun st : Nat => (⟨x, y, (st : Int), layer⟩ : PlLoc)) st)
              else none) = _
        rw [findSome?_eq_find?_map (fun st : Nat => (⟨x, y, (st : Int), layer⟩ : PlLoc))
          (fun l => (lookupLoc tbl l).isNone)]
        apply find?_congr_mem
        intro l hl
        simp only [List.mem_map] at hl
        obtain ⟨st, _, rfl⟩ := hl
        simp [admissible, inBounds, hb, hroot, hcomp]
      · rw [if_neg hroot, Eq.comm, List.find?_eq_none]
        intro l hl
        simp only [List.mem_map] at hl
        obtain ⟨st, _, rfl⟩ := hl
        simp [admissible, hroot]
    · rw [if_neg hcomp, Eq.comm, List.find?_eq_none]
      intro l hl
      simp only [List.mem_map] at hl
      obtain ⟨st, _, rfl⟩ := hl
      simp [admissible, hcomp]

/-- The relocation search returns exactly the first admissible candidate
of the canonical ring-ordered enumeration. -/
theorem relocSearch_eq_find? (g : Grid) (ct : BlockType) (tbl : PlacedTable)
    (orig : TileLoc) :
    relocSearch g ct tbl orig = (relocCandidates g orig).find? (admissible g ct tbl) := by
  rw [relocCandidates_eq_flatMap_ringBlock, find?_flatMap, relocSearch]
  have hfun : (fun r => (ringOffsets r).findSome? (fun d =>
      tryTileAt g ct tbl (orig.x + d.1) (orig.y + d.2) orig.layer)) =
      (fun r => (ringBlock g orig r).find? (admissible g ct tbl)) := by
    funext r
    rw [ringBlock, find?_flatMap]
    have hinner : (fun d : Int × Int =>
        tryTileAt g ct tbl (orig.x + d.1) (orig.y + d.2) orig.layer) =
        (fun d : Int × Int =>
          ((List.range (g.capacity
              (g.tileType ⟨orig.x + d.1, orig.y + d.2, orig.layer⟩))).map
            (fun st : Nat =>
              (⟨orig.x + d.1, orig.y + d.2, (st : Int), orig.layer⟩ : PlLoc))).find?
            (admissible g ct tbl)) := by
      funext d
      exact tryTileAt_eq_find? g ct tbl (orig.x + d.1) (orig.y + d.2) orig.layer
    rw [hinner]
  rw [hfun]

/-- Candidates are enumerated in rings of non-decreasing Manhattan
distance from the desired location. -/
theorem relocCandidates_sorted (g : Grid) (orig : TileLoc) :
    (relocCandidates g orig).Pairwise (fun a b => locDist orig a ≤ locDist orig b) := by
  rw [relocCandidates_eq_flatMap_ringBlock, List.pairwise_flatMap]
  constructor
  · intro r _
    apply List.pairwise_of_forall_mem_list
    intro a ha b hb
    rw [mem_ringBlock_dist ha, mem_ringBlock_dist hb]
  · exact (List.pairwise_lt_range _).imp (fun h x hx y hy => by
      rw [mem_ringBlock_dist hx, mem_ringBlock_dist hy]; omega)

/-- The search domain is capped at `max_search_radius`. -/
theorem relocCandidates_dist_le (g : Grid) (orig : TileLoc) :
    ∀ l ∈ relocCandidates g orig, locDist orig l ≤ max_search_radius g := by
  intro l hl
  rw [relocCandidates_eq_flatMap_ringBlock, List.mem_flatMap] at hl
  obtain ⟨r, hr, hlb⟩ := hl
  rw [mem_ringBlock_dist hlb]
  rw [List.mem_range] at hr
  omega

theorem lookupLoc_eq_none_iff (tbl : PlacedTable) (l : PlLoc) :
    lookupLoc tbl l = none ↔ l ∉ tbl.map Prod.fst := by
  simp only [lookupLoc, Option.map_eq_none', List.find?_eq_none, List.mem_map]
  constructor
  · rintro h ⟨p, hp, rfl⟩
    exact h p hp (by simp)
  · intro h p hp hpl
    exact h ⟨p, hp, of_decide_eq_true hpl⟩

theorem lookupLoc_cons (e : PlLoc × ClusterId) (tbl : PlacedTable) (l : PlLoc) :
    lookupLoc (e :: tbl) l = if e.1 = l then some e.2 else lookupLoc tbl l := by
  by_cases h : e.1 = l
  · simp [lookupLoc, List.find?_cons, h]
  · simp [lookupLoc, List.find?_cons, h]

/-- Admissibility includes freeness in the table. -/
theorem admissible_lookup_none {g : Grid} {ct : BlockType} {tbl : PlacedTable}
    {l : PlLoc} (h : admissible g ct tbl l = true) : lookupLoc tbl l = none := by
  simp only [admissible, Bool.and_eq_true] at h
  exact Option.isNone_iff_eq_none.mp h.2

/-- A successful relocation search returns an admissible location. -/
theorem relocSearch_some_admissible {g : Grid} {ct : BlockType} {tbl : PlacedTable}
    {orig : TileLoc} {l : PlLoc} (h : relocSearch g ct tbl orig = some l) :
    admissible g ct tbl l = true := by
  rw [relocSearch_eq_find?] at h
  exact List.find?_some h

theorem occupiedMono_refl (tbl : PlacedTable) : occupiedMono tbl tbl :=
  fun _ h => h

theorem occupiedMono_trans {t₁ t₂ t₃ : PlacedTable}
    (h₁ : occupiedMono t₁ t₂) (h₂ : occupiedMono t₂ t₃) : occupiedMono t₁ t₃ :=
  fun l h => h₂ l (h₁ l h)

theorem occupiedMono_cons (e : PlLoc × ClusterId) (tbl : PlacedTable) :
    occupiedMono tbl (e :: tbl) := by
  intro l h
  rw [lookupLoc_cons]
  by_cases he : e.1 = l <;> simp [he, h]

/-- A search that fails on a table keeps failing on any occupancy
extension of it (fewer sub-tiles are free). -/
theorem relocSearch_none_mono {g : Grid} {ct : BlockType} {tbl tbl' : PlacedTable}
    {orig : TileLoc} (hm : occupiedMono tbl tbl')
    (h : relocSearch g ct tbl orig = none) : relocSearch g ct tbl' orig = none := by
  rw [relocSearch_eq_find?, List.find?_eq_none] at h ⊢
  intro l hl hadm
  apply h l hl
  simp only [admissible, Bool.and_eq_true] at hadm ⊢
  refine ⟨hadm.1, ?_⟩
  rw [Option.isNone_iff_eq_none] at hadm ⊢
  by_cases hfree : lookupLoc tbl l = none
  · exact hfree
  · exact absurd hadm.2 (hm l hfree)

theorem placeClustersAt_mono (g : Grid) (ctypes : ClusterId → BlockType)
    (orig : TileLoc) :
    ∀ (cids : List ClusterId) (tbl : PlacedTable),
      occupiedMono tbl (placeClustersAt g ctypes orig tbl cids).1 := by
  intro cids
  induction cids with
  | nil => intro tbl; exact occupiedMono_refl tbl
  | cons cid rest ih =>
    intro tbl
    rw [placeClustersAt]
    cases h : relocSearch g (ctypes cid) tbl orig with
    | some l =>
      exact occupiedMono_trans (occupiedMono_cons (l, cid) tbl) (ih ((l, cid) :: tbl))
    | none => exact ih tbl

theorem place_remaining_clusters_mono (g : Grid) (ctypes : ClusterId → BlockType) :
    ∀ (unplaced : List (TileLoc × List ClusterId)) (tbl : PlacedTable),
      occupiedMono tbl (place_remaining_clusters g ctypes tbl unplaced).1 := by
  intro unplaced
  induction unplaced with
  | nil => intro tbl; exact occupiedMono_refl tbl
  | cons e rest ih =>
    intro tbl
    obtain ⟨orig, cids⟩ := e
    rw [place_remaining_clusters]
    exact occupiedMono_trans (placeClustersAt_mono g ctypes orig cids tbl)
      (ih (placeClustersAt g ctypes orig tbl cids).1)

/-- A cluster with no admissible site (already against the table the pass
starts from) ends among the failures of its location group. -/
theorem placeClustersAt_failed_mem (g : Grid) (ctypes : ClusterId → BlockType)
    (orig : TileLoc) {cid : ClusterId} {tbl₀ : PlacedTable} :
    ∀ (cids : List ClusterId) (tbl : PlacedTable), occupiedMono tbl₀ tbl → cid ∈ cids →
      relocSearch g (ctypes cid) tbl₀ orig = none →
      cid ∈ (placeClustersAt g ctypes orig tbl cids).2 := by
  intro cids
  induction cids with
  | nil => intro tbl _ hmem _; cases hmem
  | cons c rest ih =>
    intro tbl hmono hmem hnone
    rw [placeClustersAt]
    rcases List.mem_cons.mp hmem with rfl | hmem'
    · have hn : relocSearch g (ctypes cid) tbl orig = none :=
        relocSearch_none_mono hmono hnone
      rw [hn]
      exact List.mem_cons_self _ _
    · cases h : relocSearch g (ctypes c) tbl orig with
      | some l =>
        exact ih ((l, c) :: tbl)
          (occupiedMono_trans hmono (occupiedMono_cons (l, c) tbl)) hmem' hnone
      | none =>
        exact List.mem_cons_of_mem c (ih tbl hmono hmem' hnone)

theorem place_remaining_clusters_failed_mem (g : Grid)
    (ctypes : ClusterId → BlockType) {orig : TileLoc} {cids : List ClusterId}
    {cid : ClusterId} {tbl₀ : PlacedTable} :
    ∀ (unplaced : List (TileLoc × List ClusterId)) (tbl : PlacedTable),
      occupiedMono tbl₀ tbl → (orig, cids) ∈ unplaced → cid ∈ cids →
      relocSearch g (ctypes cid) tbl₀ orig = none →
      ∃ e ∈ (place_remaining_clusters g ctypes tbl unplaced).2, cid ∈ e.2 := by
  intro unplaced
  induction unplaced with
  | nil => intro tbl _ hmem _ _; cases hmem
  | cons entry rest ih =>
    intro tbl hmono hmem hcid hnone
    obtain ⟨o', cs'⟩ := entry
    rw [place_remaining_clusters]
    rcases List.mem_cons.mp hmem with heq | hmem'
    · obtain ⟨rfl, rfl⟩ := Prod.mk.injEq .. ▸ And.intro (congrArg Prod.fst heq) (congrArg Prod.snd heq)
      have hfail : cid ∈ (placeClustersAt g ctypes orig tbl cids).2 :=
        placeClustersAt_failed_mem g ctypes orig cids tbl hmono hcid hnone
      have hne : ((placeClustersAt g ctypes orig tbl cids).2).isEmpty = false := by
        cases h : (placeClustersAt g ctypes orig tbl cids).2 with
        | nil => rw [h] at hfail; cases hfail
        | cons a t => simp
      simp only [hne, Bool.false_eq_true, if_false]
      exact ⟨(orig, (placeClustersAt g ctypes orig tbl cids).2),
        List.mem_cons_self _ _, hfail⟩
    · have hrec := ih (placeClustersAt g ctypes o' tbl cs').1
        (occupiedMono_trans hmono (placeClustersAt_mono g ctypes o' cs' tbl))
        hmem' hcid hnone
      obtain ⟨e, he, hce⟩ := hrec
      by_cases hempty : ((placeClustersAt g ctypes o' tbl cs').2).isEmpty = true
      · simp only [hempty, if_true]
        exact ⟨e, he, hce⟩
      · simp only [hempty, if_false]
        exact ⟨e, List.mem_cons_of_mem _ he, hce⟩

/-- Key distinctness is preserved by a guarded insert. -/
theorem keysNodup_cons {tbl : PlacedTable} {l : PlLoc} {c : ClusterId}
    (hfree : lookupLoc tbl l = none) (h : keysNodup tbl) :
    keysNodup ((l, c) :: tbl) := by
  rw [keysNodup, List.map_cons, List.nodup_cons]
  exact ⟨(lookupLoc_eq_none_iff tbl l).mp hfree, h⟩

theorem keysNodup_eraseLoc (tbl : PlacedTable) (l : PlLoc) (h : keysNodup tbl) :
    keysNodup (eraseLoc tbl l) := by
  rw [keysNodup]
  exact h.sublist ((List.filter_sublist tbl).map Prod.fst)

theorem keysNodup_placeClustersAt (g : Grid) (ctypes : ClusterId → BlockType)
    (orig : TileLoc) :
    ∀ (cids : List ClusterId) (tbl : PlacedTable), keysNodup tbl →
      keysNodup (placeClustersAt g ctypes orig tbl cids).1 := by
  intro cids
  induction cids with
  | nil => intro tbl h; exact h
  | cons cid rest ih =>
    intro tbl h
    rw [placeClustersAt]
    cases hs : relocSearch g (ctypes cid) tbl orig with
    | some l =>
      exact ih ((l, cid) :: tbl)
        (keysNodup_cons (admissible_lookup_none (relocSearch_some_admissible hs)) h)
    | none => exact ih tbl h

theorem keysNodup_place_remaining (g : Grid) (ctypes : ClusterId → BlockType) :
    ∀ (unplaced : List (TileLoc × List ClusterId)) (tbl : PlacedTable), keysNodup tbl →
      keysNodup (place_remaining_clusters g ctypes tbl unplaced).1 := by
  intro unplaced
  induction unplaced with
  | nil => intro tbl h; exact h
  | cons entry rest ih =>
    intro tbl h
    obtain ⟨orig, cids⟩ := entry
    rw [place_remaining_clusters]
    exact ih (placeClustersAt g ctypes orig tbl cids).1
      (keysNodup_placeClustersAt g ctypes orig cids tbl h)

/-- The direct-pass scan only binds at a location the lookup reported
free. -/
theorem directScan_table (g : Grid) (o : DirectOracle) (tile : TileLoc)
    (blockType : BlockType) (mol : MolId) (newId : ClusterId) :
    ∀ (sts : List Nat) (tbl : PlacedTable) (r : DirectResult) (tbl' : PlacedTable),
      directScan g o tile blockType mol newId tbl sts = some (r, tbl') →
      tbl' = tbl ∨ ∃ l, lookupLoc tbl l = none ∧ tbl' = (l, newId) :: tbl := by
  intro sts
  induction sts with
  | nil => intro tbl r tbl' h; cases h
  | cons st rest ih =>
    intro tbl r tbl' h
    rw [directScan] at h
    by_cases hroot : is_root_tile g tile = true
    · rw [if_pos hroot] at h
      split at h
      · rename_i cid heq
        split at h
        · split at h
          · cases h
            exact Or.inl rfl
          · exact ih tbl r tbl' h
        · exact ih tbl r tbl' h
      · rename_i heq
        split at h
        · cases h
          exact Or.inr ⟨⟨tile.x, tile.y, (st : Int), tile.layer⟩, heq, rfl⟩
        · exact ih tbl r tbl' h
    · rw [if_neg hroot] at h
      cases h

/-- Distinct keys make the table a partial function: the same location is
never bound to two different clusters. -/
theorem keysNodup_functional :
    ∀ tbl : PlacedTable, keysNodup tbl →
      ∀ l c c', (l, c) ∈ tbl → (l, c') ∈ tbl → c = c' := by
  intro tbl
  induction tbl with
  | nil => intro _ l c c' h; cases h
  | cons e t ih =>
    intro hnd l c c' h1 h2
    rw [keysNodup, List.map_cons, List.nodup_cons] at hnd
    rcases List.mem_cons.mp h1 with h1e | h1'
    · rcases List.mem_cons.mp h2 with h2e | h2'
      · rw [← h1e] at h2e
        exact (congrArg Prod.snd h2e).symm
      · exfalso
        apply hnd.1
        rw [← h1e]
        exact List.mem_map.mpr ⟨(l, c'), h2', rfl⟩
    · rcases List.mem_cons.mp h2 with h2e | h2'
      · exfalso
        apply hnd.1
        rw [← h2e]
        exact List.mem_map.mpr ⟨(l, c), h1', rfl⟩
      · exact ih hnd.2 l c c' h1' h2'

/-- When every sub-tile of the tile is free and the tile rejects the
molecule's (first-candidate) block type, the sub-tile scan places
nothing. -/
theorem directScan_none_of_incompat (g : Grid) (o : DirectOracle) (tile : TileLoc)
    (t₀ : BlockType) (mol : MolId) (newId : ClusterId) (tbl : PlacedTable)
    (hfree : ∀ st : Nat, lookupLoc tbl ⟨tile.x, tile.y, (st : Int), tile.layer⟩ = none)
    (hcomp : g.compatible (g.tileType tile) t₀ = false) :
    ∀ sts : List Nat, directScan g o tile t₀ mol newId tbl sts = none := by
  intro sts
  induction sts with
  | nil => rfl
  | cons st rest ih =>
    rw [directScan]
    by_cases hroot : is_root_tile g tile = true
    · rw [if_pos hroot]
      simp only [hfree st, hcomp]
      exact ih
    · rw [if_neg hroot]

/-- When the pass runs under the FULL strategy, or no legality check ever
fails, a seed iteration leaves `unclustered_blocks` untouched (the only
mutation is the destroy-and-requeue path). -/
theorem neighborProcessSeed_ub (o : NeighborOracle) (strat : Strategy)
    (radius : Nat) (m : MolId) (t : TileLoc) (st : NbState)
    (h : strat = .full ∨ ∀ ms, o.checkLegal ms = true) :
    (neighborProcessSeed o strat radius m t st).unclusteredBlocks =
      st.unclusteredBlocks := by
  rw [neighborProcessSeed]
  by_cases hc : st.clusteredMols.contains m = true
  · rw [if_pos hc]
  · rw [if_neg hc]
    rcases h with rfl | hall
    · rfl
    · cases strat with
      | full => rfl
      | skipIntraLbRoute => simp [hall]

theorem neighborPassLoop_ub_le (o : NeighborOracle) (strat : Strategy)
    (radius : Nat) (h : strat = .full ∨ ∀ ms, o.checkLegal ms = true) :
    ∀ (copy : List (MolId × TileLoc)) (st : NbState),
      (neighborPassLoop o strat radius st copy).unclusteredBlocks.length ≤
        st.unclusteredBlocks.length := by
  intro copy
  induction copy with
  | nil =>
    intro st
    rw [neighborPassLoop]
    exact List.length_filter_le _ _
  | cons p rest ih =>
    intro st
    obtain ⟨m, t⟩ := p
    rw [neighborPassLoop]
    calc (neighborPassLoop o strat radius
            (neighborProcessSeed o strat radius m t st) rest).unclusteredBlocks.length
        ≤ (neighborProcessSeed o strat radius m t st).unclusteredBlocks.length :=
          ih _
      _ = st.unclusteredBlocks.length := by
          rw [neighborProcessSeed_ub o strat radius m t st h]

/-- Under the FULL strategy every successful add yields a strictly legal
cluster (spec-modelled oracle property), so growth through a molecule
list preserves strict legality of the members. -/
theorem tryMolList_legal (o : NeighborOracle)
    (hadd : ∀ m ms, o.addPasses .full m ms = true → o.checkLegal (ms ++ [m]) = true) :
    ∀ (list mem cm lc : List MolId), o.checkLegal mem = true →
      o.checkLegal (tryMolList o .full list mem cm lc).2.1 = true := by
  intro list
  induction list with
  | nil => intro mem cm lc h; exact h
  | cons m rest ih =>
    intro mem cm lc h
    rw [tryMolList]
    by_cases h1 : lc.contains m = true
    · rw [if_pos h1]; exact ih mem cm lc h
    · rw [if_neg h1]
      by_cases h2 : cm.contains m = true
      · rw [if_pos h2]; exact ih mem cm lc h
      · rw [if_neg h2]
        by_cases h3 : (o.molCompatible .full m mem && o.addPasses .full m mem) = true
        · rw [if_pos h3]
          exact ih (mem ++ [m]) (m :: cm) (m :: lc)
            (hadd m mem (Bool.and_eq_true .. |>.mp h3).2)
        · rw [if_neg h3]
          exact ih mem cm lc h

theorem tryClusterTileAt_legal (o : NeighborOracle)
    (hadd : ∀ m ms, o.addPasses .full m ms = true → o.checkLegal (ms ++ [m]) = true)
    (t : TileLoc) (locs : List (TileLoc × List MolId)) (mem cm lc : List MolId)
    (h : o.checkLegal mem = true) :
    o.checkLegal (tryClusterTileAt o .full t locs mem cm lc).2.1 = true := by
  rw [tryClusterTileAt]
  cases hf : locsFind locs t with
  | none => exact h
  | some mols => exact tryMolList_legal o hadd mols mem cm lc h

theorem neighborScan_legal (o : NeighborOracle)
    (hadd : ∀ m ms, o.addPasses .full m ms = true → o.checkLegal (ms ++ [m]) = true)
    (seed : TileLoc) :
    ∀ (offs : List (Int × Int)) (locs : List (TileLoc × List MolId))
      (mem cm lc : List MolId), o.checkLegal mem = true →
      o.checkLegal (neighborScan o .full seed offs locs mem cm lc).2.1 = true := by
  intro offs
  induction offs with
  | nil => intro locs mem cm lc h; exact h
  | cons d rest ih =>
    intro locs mem cm lc h
    rw [neighborScan]
    by_cases hf : (locsFind locs ⟨seed.x + d.1, seed.y + d.2, seed.layer⟩).isSome = true
    · rw [if_pos hf]
      have hleg := tryClusterTileAt_legal o hadd
        ⟨seed.x + d.1, seed.y + d.2, seed.layer⟩ locs mem cm lc h
      by_cases hsp : o.hasEmptyPrimitive
          (tryClusterTileAt o .full ⟨seed.x + d.1, seed.y + d.2, seed.layer⟩
            locs mem cm lc).2.1 = true
      · rw [if_pos hsp]
        exact ih _ _ _ _ hleg
      · rw [if_neg hsp]
        exact hleg
    · rw [if_neg hf]
      exact ih locs mem cm lc h

/-- Every cluster a seed iteration finalizes passes the strict check:
under SKIP because it is checked explicitly, under FULL because start and
every add were strictly checked (spec-modelled). -/
theorem neighborProcessSeed_finalized (o : NeighborOracle) (strat : Strategy)
    (radius : Nat) (m : MolId) (t : TileLoc) (st : NbState)
    (hcond : strat = .full →
      (∀ s, o.checkLegal [s] = true)
      ∧ (∀ s ms, o.addPasses .full s ms = true → o.checkLegal (ms ++ [s]) = true))
    (hfin : ∀ e ∈ st.finalized, o.checkLegal e.1 = true) :
    ∀ e ∈ (neighborProcessSeed o strat radius m t st).finalized,
      o.checkLegal e.1 = true := by
  intro e he
  rw [neighborProcessSeed] at he
  by_cases hc : st.clusteredMols.contains m = true
  · rw [if_pos hc] at he
    exact hfin e he
  · rw [if_neg hc] at he
    cases strat with
    | full =>
      obtain ⟨hstart, hadd⟩ := hcond rfl
      simp only [] at he
      rcases List.mem_cons.mp he with rfl | he'
      · exact neighborScan_legal o hadd t _ _ _ _ _
          (tryClusterTileAt_legal o hadd t _ _ _ _ (hstart m))
      · exact hfin e he'
    | skipIntraLbRoute =>
      simp only [] at he
      split at he
      · rename_i hchk
        rcases List.mem_cons.mp he with rfl | he'
        · exact hchk
        · exact hfin e he'
      · exact hfin e he

theorem neighborPassLoop_finalized (o : NeighborOracle) (strat : Strategy)
    (radius : Nat)
    (hcond : strat = .full →
      (∀ s, o.checkLegal [s] = true)
      ∧ (∀ s ms, o.addPasses .full s ms = true → o.checkLegal (ms ++ [s]) = true)) :
    ∀ (copy : List (MolId × TileLoc)) (st : NbState),
      (∀ e ∈ st.finalized, o.checkLegal e.1 = true) →
      ∀ e ∈ (neighborPassLoop o strat radius st copy).finalized,
        o.checkLegal e.1 = true := by
  intro copy
  induction copy with
  | nil =>
    intro st hfin e he
    rw [neighborPassLoop] at he
    exact hfin e he
  | cons p rest ih =>
    intro st hfin e he
    obtain ⟨m, t⟩ := p
    rw [neighborPassLoop] at he
    exact ih (neighborProcessSeed o strat radius m t st)
      (neighborProcessSeed_finalized o strat radius m t st hcond hfin) e he

/-- An atom without a cluster makes the atom-map construction fail with
the assertion message. -/
theorem atomToLegalizationMap_error (f : Nat → Option ClusterId) :
    ∀ (atoms : List Nat) (a : Nat), a ∈ atoms → f a = none →
      atomToLegalizationMap f atoms = .error assertMsg := by
  intro atoms
  induction atoms with
  | nil => intro a h; cases h
  | cons b rest ih =>
    intro a hmem hnone
    rw [atomToLegalizationMap]
    cases hb : f b with
    | none => rfl
    | some cid =>
      rcases List.mem_cons.mp hmem with rfl | hmem'
      · rw [hb] at hnone; cases hnone
      · rw [ih a hmem' hnone]

/-! ## Claim theorems for C1 and C7 -/

/-- C1: the spec says a constrained cluster fails to place exactly when the
desired site lies OUTSIDE its partition region.  The code
(`APClusterPlacer::place_cluster`, full_legalizer.cpp lines 250-255, and
identically `place_cluster_reconstruction` lines 202-207) tests
`is_loc_in_part_reg(to_loc)` and returns `false` when the location IS
inside the region, i.e. the condition is inverted relative to the comment
"Check if this cluster is constrained and this location is legal. ... If
the location is legal, try to exhaustively place it": for an unplaced,
constrained cluster at a tile with sub-tiles, the call fails due to the
constraint iff the location is inside the region, and at the concrete
failing input (inside the region, macro placeable) it fails while leaving
the table untouched, yet proceeds when the location is outside. -/
theorem c1_constraint_check_inverted :
    (∀ i : PlaceClusterInput, i.alreadyPlaced = false → i.numSubTiles ≠ 0 →
      i.constrained = true → i.tryPlaceMacro = true →
      (place_cluster i = false ↔ i.locInPartReg = true))
    ∧ place_cluster ⟨false, 1, true, true, true⟩ = false
    ∧ place_cluster ⟨false, 1, true, false, true⟩ = true
    ∧ (∀ update : PlacedTable → PlacedTable,
        (place_cluster_effect ⟨false, 1, true, true, true⟩ [] update).2 = []) := by
  refine ⟨?_, rfl, rfl, fun update => rfl⟩
  intro i h1 h2 h3 h4
  simp [place_cluster, h1, h2, h3, h4]

/-- Witness for the quantified part of `c1_constraint_check_inverted`:
at the inside-the-region input the code fails. -/
theorem c1_constraint_check_inverted_witness :
    place_cluster ⟨false, 1, true, true, true⟩ = false :=
  ((c1_constraint_check_inverted.1 ⟨false, 1, true, true, true⟩ rfl
    (by decide) rfl rfl).2 rfl)

/-- C7: `create_new_cluster` (full_legalizer.cpp lines 305-339) probes the
oracle's `start_new_cluster` over the seed molecule's candidate
(block type, mode) pairs in their fixed table order (types in candidate
order, each with modes `0..num_modes-1`), returns the cluster id of the
first passing pair, and when no pair passes it raises the fatal
architecture-mismatch error, which aborts the run before any later
placement stage executes. -/
theorem c7_create_new_cluster_first_success :
    ∀ (start : BlockType → Nat → Option ClusterId) (cands : List (BlockType × Nat)),
    (∀ cid, create_new_cluster start cands = .ok cid ↔
      ∃ l₁ p l₂, candidatePairs cands = l₁ ++ p :: l₂ ∧ start p.1 p.2 = some cid ∧
        ∀ q ∈ l₁, start q.1 q.2 = none)
    ∧ (create_new_cluster start cands = .error archMismatchMsg ↔
        ∀ p ∈ candidatePairs cands, start p.1 p.2 = none)
    ∧ ∀ (placeStage : ClusterId → Except String Unit),
        (∀ p ∈ candidatePairs cands, start p.1 p.2 = none) →
        packThenPlace start cands placeStage = .error archMismatchMsg := by
  intro start cands
  refine ⟨?_, ?_, ?_⟩
  · intro cid
    rw [create_new_cluster_ok_iff, List.findSome?_eq_some_iff]
  · rw [create_new_cluster_error_iff, List.findSome?_eq_none_iff]
  · intro placeStage hall
    have herr : create_new_cluster start cands = .error archMismatchMsg := by
      rw [create_new_cluster_error_iff, List.findSome?_eq_none_iff]
      exact hall
    simp [packThenPlace, herr, Bind.bind, Except.bind]

/-- Witness for `c7_create_new_cluster_first_success`: with a single
candidate type of one mode and an oracle accepting it with cluster id 5,
the call returns id 5; with an always-failing oracle it raises the fatal
error and no placement runs. -/
theorem c7_create_new_cluster_first_success_witness :
    create_new_cluster (fun _ _ => some 5) [(0, 1)] = .ok 5
    ∧ packThenPlace (fun _ _ => none) [(0, 1)] (fun _ => .ok ()) = .error archMismatchMsg := by
  constructor
  · exact ((c7_create_new_cluster_first_success (fun _ _ => some 5) [(0, 1)]).1 5).2
      ⟨[], (0, 0), [], by decide, rfl, by simp⟩
  · exact (c7_create_new_cluster_first_success (fun _ _ => none) [(0, 1)]).2.2
      (fun _ => .ok ()) (fun p _ => rfl)

/-- C2: the placed-location table is a partial injective (functional)
mapping throughout: with pairwise-distinct keys no (x, y, layer, sub_tile)
tuple is bound to two distinct clusters, and key distinctness is
preserved by every mutation the passes perform — the direct pass's
per-molecule step (which binds only at a sub-tile whose lookup failed),
the relocation search of `place_remaining_clusters` (which skips bound
sub-tiles), and the erase of an illegal cluster's binding. -/
theorem c2_placed_table_injective :
    (∀ tbl : PlacedTable, keysNodup tbl →
      ∀ l c c', (l, c) ∈ tbl → (l, c') ∈ tbl → c = c')
    ∧ (∀ (g : Grid) (o : DirectOracle) (tbl : PlacedTable) (tile : TileLoc)
        (cands : List BlockType) (mol : MolId) (newId : ClusterId)
        (r : DirectResult) (tbl' : PlacedTable), keysNodup tbl →
        directPassMolecule g o tbl tile cands mol newId = .ok (r, tbl') →
        keysNodup tbl')
    ∧ (∀ (g : Grid) (ctypes : ClusterId → BlockType) (tbl : PlacedTable)
        (unplaced : List (TileLoc × List ClusterId)), keysNodup tbl →
        keysNodup (place_remaining_clusters g ctypes tbl unplaced).1)
    ∧ (∀ (tbl : PlacedTable) (l : PlLoc), keysNodup tbl →
        keysNodup (eraseLoc tbl l)) := by
  refine ⟨keysNodup_functional, ?_, ?_, ?_⟩
  · intro g o tbl tile cands mol newId r tbl' hnd h
    rw [directPassMolecule] at h
    split at h
    · cases h
    · rename_i blockType hbt
      split at h
      · rename_i res hscan
        cases h
        rcases directScan_table g o tile blockType mol newId _ tbl r tbl' hscan with
          rfl | ⟨l, hfree, rfl⟩
        · exact hnd
        · exact keysNodup_cons hfree hnd
      · cases h
        exact hnd
  · intro g ctypes tbl unplaced hnd
    exact keysNodup_place_remaining g ctypes unplaced tbl hnd
  · intro tbl l hnd
    exact keysNodup_eraseLoc tbl l hnd

/-- Witness for `c2_placed_table_injective`: a concrete direct-pass step
on the all-accepting 1×1 device binds the free sub-tile and the resulting
table still has distinct keys. -/
theorem c2_placed_table_injective_witness :
    keysNodup [((⟨0, 0, 0, 0⟩ : PlLoc), 7)] :=
  c2_placed_table_injective.2.1 gAll oYes [] ⟨0, 0, 0⟩ [0] 0 7
    (.newCluster ⟨0, 0, 0, 0⟩ 7) [(⟨0, 0, 0, 0⟩, 7)] List.nodup_nil rfl

/-- C5 counterexample: the claim says the abort message carries the count
of AFFECTED CLUSTERS.  On a 1×1 device accepting nothing, two clusters
sharing one desired location both exhaust the search; the fatal payload
(`cluster_id_to_loc_unplaced.size()`) is 1 — the number of distinct tile
locations — while 2 clusters are affected. -/
theorem c5_unplaced_count_counterexample :
    packPassPlacementOutcome gNone (fun _ => 0) [] [(⟨0, 0, 0⟩, [1, 2])] = .error 1
    ∧ numUnplacedClusters
        (place_remaining_clusters gNone (fun _ => 0) [] [(⟨0, 0, 0⟩, [1, 2])]).2 = 2
    ∧ (1 : Nat) ≠ 2 :=
  ⟨rfl, rfl, by decide⟩

/-- C5 (amended): a cluster whose relocation search finds no admissible
site within the full radius stays in the unplaced map, and the pass then
terminates fatally — with the number of distinct desired tile locations
still holding unplaced clusters as the reported count. -/
theorem c5_placement_exhaustion_aborts :
    ∀ (g : Grid) (ctypes : ClusterId → BlockType) (tbl : PlacedTable)
      (unplaced : List (TileLoc × List ClusterId)) (orig : TileLoc)
      (cids : List ClusterId) (cid : ClusterId),
    (orig, cids) ∈ unplaced → cid ∈ cids →
    relocSearch g (ctypes cid) tbl orig = none →
    (∃ e ∈ (place_remaining_clusters g ctypes tbl unplaced).2, cid ∈ e.2)
    ∧ packPassPlacementOutcome g ctypes tbl unplaced =
        .error (place_remaining_clusters g ctypes tbl unplaced).2.length := by
  intro g ctypes tbl unplaced orig cids cid hmem hcid hnone
  have hex := place_remaining_clusters_failed_mem g ctypes unplaced tbl
    (occupiedMono_refl tbl) hmem hcid hnone
  refine ⟨hex, ?_⟩
  obtain ⟨e, he, _⟩ := hex
  have hne : (place_remaining_clusters g ctypes tbl unplaced).2.isEmpty = false := by
    cases h : (place_remaining_clusters g ctypes tbl unplaced).2 with
    | nil => rw [h] at he; cases he
    | cons a t => simp
  simp [packPassPlacementOutcome, hne]

/-- Witness for `c5_placement_exhaustion_aborts` at the concrete
two-cluster instance. -/
theorem c5_placement_exhaustion_aborts_witness :
    (∃ e ∈ (place_remaining_clusters gNone (fun _ => 0) [] [(⟨0, 0, 0⟩, [1, 2])]).2,
      1 ∈ e.2)
    ∧ packPassPlacementOutcome gNone (fun _ => 0) [] [(⟨0, 0, 0⟩, [1, 2])] =
        .error (place_remaining_clusters gNone (fun _ => 0) []
          [(⟨0, 0, 0⟩, [1, 2])]).2.length :=
  c5_placement_exhaustion_aborts gNone (fun _ => 0) [] [(⟨0, 0, 0⟩, [1, 2])]
    ⟨0, 0, 0⟩ [1, 2] 1 (by decide) (by decide) rfl

/-- C6: the relocation search visits candidate sites in rings of
non-decreasing Manhattan distance from the cluster's desired location,
capped at max(device width, device height); the candidate enumeration is
the fixed deterministic loop order; non-root tiles, type-incompatible
tiles and bound sub-tiles are exactly the inadmissible candidates; and
the first admissible location found is the one claimed (bound to the
cluster before the next cluster is processed). -/
theorem c6_relocation_ring_search :
    ∀ (g : Grid) (ctypes : ClusterId → BlockType) (tbl : PlacedTable)
      (orig : TileLoc) (cid : ClusterId),
    relocSearch g (ctypes cid) tbl orig =
        (relocCandidates g orig).find? (admissible g (ctypes cid) tbl)
    ∧ (relocCandidates g orig).Pairwise (fun a b => locDist orig a ≤ locDist orig b)
    ∧ (∀ l ∈ relocCandidates g orig, locDist orig l ≤ max_search_radius g)
    ∧ (∀ l, relocSearch g (ctypes cid) tbl orig = some l →
        admissible g (ctypes cid) tbl l = true
        ∧ ∀ rest, placeClustersAt g ctypes orig tbl (cid :: rest) =
            placeClustersAt g ctypes orig ((l, cid) :: tbl) rest) := by
  intro g ctypes tbl orig cid
  refine ⟨relocSearch_eq_find? g (ctypes cid) tbl orig,
    relocCandidates_sorted g orig, relocCandidates_dist_le g orig, ?_⟩
  intro l hsome
  refine ⟨relocSearch_some_admissible hsome, ?_⟩
  intro rest
  rw [placeClustersAt, hsome]

/-- Witness for `c6_relocation_ring_search`: on the all-accepting 1×1
device the search claims sub-tile 0 of the origin tile. -/
theorem c6_relocation_ring_search_witness :
    admissible gAll 0 [] ⟨0, 0, 0, 0⟩ = true
    ∧ placeClustersAt gAll (fun _ => 0) ⟨0, 0, 0⟩ [] [5] =
        placeClustersAt gAll (fun _ => 0) ⟨0, 0, 0⟩ [(⟨0, 0, 0, 0⟩, 5)] [] := by
  have h := (c6_relocation_ring_search gAll (fun _ => 0) [] ⟨0, 0, 0⟩ 5).2.2.2
    ⟨0, 0, 0, 0⟩ rfl
  exact ⟨h.1, h.2 []⟩

/-- C10: the direct pass decides tile compatibility for starting a new
cluster from the FIRST entry of the molecule's candidate-type table only
(`get_molecule_logical_block_type` returns `candidate_types.front()`):
with every sub-tile of the tile free and the first candidate type
incompatible, the molecule is deferred as unclustered, even when a later
candidate type in the table is compatible with the tile. -/
theorem c10_direct_pass_first_candidate_only :
    ∀ (g : Grid) (o : DirectOracle) (tbl : PlacedTable) (tile : TileLoc)
      (t₀ : BlockType) (rest : List BlockType) (mol : MolId) (newId : ClusterId),
    (∀ st : Nat, lookupLoc tbl ⟨tile.x, tile.y, (st : Int), tile.layer⟩ = none) →
    g.compatible (g.tileType tile) t₀ = false →
    (∃ t ∈ rest, g.compatible (g.tileType tile) t = true) →
    get_molecule_logical_block_type (t₀ :: rest) = some t₀
    ∧ directPassMolecule g o tbl tile (t₀ :: rest) mol newId = .ok (.deferred, tbl) := by
  intro g o tbl tile t₀ rest mol newId hfree hcomp _
  refine ⟨rfl, ?_⟩
  rw [directPassMolecule]
  simp only [get_molecule_logical_block_type, List.head?_cons]
  rw [directScan_none_of_incompat g o tile t₀ mol newId tbl hfree hcomp]

/-- Witness for `c10_direct_pass_first_candidate_only`: on the 1×1 device
accepting only type 1, a molecule with candidate table [0, 1] is deferred
although its second candidate is compatible. -/
theorem c10_direct_pass_first_candidate_only_witness :
    get_molecule_logical_block_type [0, 1] = some 0
    ∧ directPassMolecule gSecond oYes [] ⟨0, 0, 0⟩ [0, 1] 3 9 = .ok (.deferred, []) :=
  c10_direct_pass_first_candidate_only gSecond oYes [] ⟨0, 0, 0⟩ 0 [1] 3 9
    (fun _ => rfl) rfl ⟨1, by decide, rfl⟩

/-- C3: every finalized cluster satisfies the strict legality check.  In
the greedy clusterer a SKIP-grown cluster is finalized only after
`check_cluster_legality` passes, and a FULL-grown cluster is finalized
without a final check — legal because, by the oracle's documented FULL
contract (spec §4.2: "every addition is strictly checked"; code comment
lines 321-324), a cluster grown entirely under FULL is strictly legal.
In the neighbor pass likewise: the SKIP run finalizes only checked
clusters, the FULL run finalizes clusters whose start and every add were
strictly checked. -/
theorem c3_finalized_clusters_strictly_legal :
    (∀ (o : GreedyOracle) (st : GreedyState) (seed : MolId),
      GreedyFullSound o →
      (∀ ms ∈ st.finalized, o.strictLegal ms = true) →
      ∀ ms ∈ (greedyProcessSeed o st seed).1.finalized, o.strictLegal ms = true)
    ∧ (∀ (o : NeighborOracle) (strat : Strategy) (radius : Nat)
        (ub : List (MolId × TileLoc)) (locs : List (TileLoc × List MolId))
        (lc : List MolId),
      (strat = .full → FullStrategySound o) →
      ∀ e ∈ (neighbor_cluster_pass o strat radius ub locs lc).finalized,
        o.checkLegal e.1 = true) := by
  constructor
  · intro o st seed hfull hfin ms hms
    rw [greedyProcessSeed] at hms
    by_cases h : o.strictLegal (o.growCluster .skipIntraLbRoute seed) = true
    · rw [if_pos h] at hms
      simp only [] at hms
      rcases List.mem_cons.mp hms with rfl | hms'
      · exact h
      · exact hfin ms hms'
    · rw [if_neg h] at hms
      simp only [] at hms
      rcases List.mem_cons.mp hms with rfl | hms'
      · exact hfull seed
      · exact hfin ms hms'
  · intro o strat radius ub locs lc hcond
    exact neighborPassLoop_finalized o strat radius hcond ub ⟨ub, locs, [], lc, []⟩
      (fun e he => absurd he (List.not_mem_nil e))

/-- Witness for `c3_finalized_clusters_strictly_legal`: the seed-only
cluster finalized by both concrete runs passes the strict check. -/
theorem c3_finalized_clusters_strictly_legal_witness :
    gOrcl.strictLegal [0] = true ∧ oAccept.checkLegal [0] = true :=
  ⟨c3_finalized_clusters_strictly_legal.1 gOrcl gSt0 0 (fun _ => rfl)
      (fun ms hms => absurd hms (List.not_mem_nil ms)) [0]
      (List.mem_cons_self [0] []),
   c3_finalized_clusters_strictly_legal.2 oAccept .full 1 [(0, ⟨0, 0, 0⟩)]
      [(⟨0, 0, 0⟩, [0])] []
      (fun _ => And.intro (fun _ => rfl) (fun _ _ _ => rfl))
      (([0], ⟨0, 0, 0⟩) : List MolId × TileLoc)
      (List.mem_cons_self (([0], ⟨0, 0, 0⟩) : List MolId × TileLoc) [])⟩

/-- C4: per seed the greedy clusterer makes at most two attempts — the
cluster is grown under the cheap tier first; if the strict check then
fails, the per-type usage counter and the cluster count are rolled back,
the members return to the pool, and the cluster is regrown from the SAME
seed under the strict tier; a cluster passing either tier is finalized. -/
theorem c4_greedy_two_tier :
    ∀ (o : GreedyOracle) (st : GreedyState) (seed : MolId),
    ((greedyProcessSeed o st seed).2 =
      if o.strictLegal (o.growCluster .skipIntraLbRoute seed) then
        [(.skipIntraLbRoute, o.growCluster .skipIntraLbRoute seed)]
      else [(.skipIntraLbRoute, o.growCluster .skipIntraLbRoute seed),
            (.full, o.growCluster .full seed)])
    ∧ (greedyProcessSeed o st seed).2.length ≤ 2
    ∧ (∀ att ∈ (greedyProcessSeed o st seed).2, att.2 = o.growCluster att.1 seed)
    ∧ (greedyProcessSeed o st seed).1.totalClb = st.totalClb + 1
    ∧ (greedyProcessSeed o st seed).1.finalized =
        (if o.strictLegal (o.growCluster .skipIntraLbRoute seed) then
          o.growCluster .skipIntraLbRoute seed
        else o.growCluster .full seed) :: st.finalized
    ∧ (greedyProcessSeed o st seed).1.clusteredMols =
        st.clusteredMols ++
          (if o.strictLegal (o.growCluster .skipIntraLbRoute seed) then
            o.growCluster .skipIntraLbRoute seed
          else o.growCluster .full seed)
    ∧ (∀ ty, (greedyProcessSeed o st seed).1.usedType ty =
        bump st.usedType
          (if o.strictLegal (o.growCluster .skipIntraLbRoute seed) then
            o.clusterType .skipIntraLbRoute seed
          else o.clusterType .full seed) 1 ty) := by
  intro o st seed
  by_cases h : o.strictLegal (o.growCluster .skipIntraLbRoute seed) = true
  · refine ⟨?_, ?_, ?_, ?_, ?_, ?_, ?_⟩
    · simp only [greedyProcessSeed]
      rw [if_pos h, if_pos h]
    · simp only [greedyProcessSeed]
      rw [if_pos h]
      simp
    · intro att hatt
      simp only [greedyProcessSeed] at hatt
      rw [if_pos h] at hatt
      rcases List.mem_cons.mp hatt with rfl | hatt'
      · rfl
      · exact absurd hatt' (List.not_mem_nil att)
    · simp only [greedyProcessSeed]
      rw [if_pos h]
    · simp only [greedyProcessSeed]
      rw [if_pos h, if_pos h]
    · simp only [greedyProcessSeed]
      rw [if_pos h, if_pos h]
    · intro ty
      simp only [greedyProcessSeed]
      rw [if_pos h, if_pos h]
  · refine ⟨?_, ?_, ?_, ?_, ?_, ?_, ?_⟩
    · simp only [greedyProcessSeed]
      rw [if_neg h, if_neg h]
    · simp only [greedyProcessSeed]
      rw [if_neg h]
      simp
    · intro att hatt
      simp only [greedyProcessSeed] at hatt
      rw [if_neg h] at hatt
      simp only [] at hatt
      rcases List.mem_cons.mp hatt with rfl | hatt'
      · rfl
      · rcases List.mem_cons.mp hatt' with rfl | hatt''
        · rfl
        · exact absurd hatt'' (List.not_mem_nil att)
    · simp only [greedyProcessSeed]
      rw [if_neg h]
      simp only []
      omega
    · simp only [greedyProcessSeed]
      rw [if_neg h, if_neg h]
    · simp only [greedyProcessSeed]
      rw [if_neg h, if_neg h]
    · intro ty
      simp only [greedyProcessSeed]
      rw [if_neg h, if_neg h]
      simp only [bump]
      by_cases h1 : ty = o.clusterType .skipIntraLbRoute seed <;>
        by_cases h2 : ty = o.clusterType .full seed <;>
        simp only [h1, h2, if_true, if_pos, if_neg, ite_true, ite_false] <;>
        split_ifs <;> omega

/-- Witness for `c4_greedy_two_tier`: with the always-legal concrete
oracle the seed 4 is finalized after the single cheap attempt. -/
theorem c4_greedy_two_tier_witness :
    (greedyProcessSeed gOrcl gSt0 4).2 = [(.skipIntraLbRoute, [4])]
    ∧ (greedyProcessSeed gOrcl gSt0 4).1.finalized = [[4]] := by
  have h := c4_greedy_two_tier gOrcl gSt0 4
  exact ⟨h.1, h.2.2.2.2.1⟩

/-- C8 counterexample: the unclustered-molecule count can INCREASE across
a cheap-tier neighbor pass.  One molecule, its seed cluster failing the
strict check: the destroy path appends the member to `unclustered_blocks`
while the original entry stays, and since the molecule is no longer in
`clustered_molecules` the final cleanup removes neither copy — the count
goes from 1 to 2. -/
theorem c8_destroy_requeue_duplicates :
    (neighbor_cluster_pass oReject .skipIntraLbRoute 4
      [(0, ⟨0, 0, 0⟩)] [(⟨0, 0, 0⟩, [0])] []).unclusteredBlocks.length = 2
    ∧ [((0 : MolId), (⟨0, 0, 0⟩ : TileLoc))].length = 1
    ∧ ¬(2 ≤ 1) :=
  ⟨rfl, rfl, by decide⟩

/-- C8 (amended): the unclustered-molecule count is non-increasing across
a neighbor pass run under the strict (FULL) strategy, and across any pass
in which no grown cluster fails the legality check; a cheap-tier pass
with a failing cluster can increase it, because the destroy path appends
the destroyed cluster's members without removing their original
entries. -/
theorem c8_unclustered_nonincreasing_amended :
    ∀ (o : NeighborOracle) (strat : Strategy) (radius : Nat)
      (ub : List (MolId × TileLoc)) (locs : List (TileLoc × List MolId))
      (lc : List MolId),
    (strat = .full ∨ ∀ ms, o.checkLegal ms = true) →
    (neighbor_cluster_pass o strat radius ub locs lc).unclusteredBlocks.length ≤
      ub.length := by
  intro o strat radius ub locs lc h
  exact neighborPassLoop_ub_le o strat radius h ub ⟨ub, locs, [], lc, []⟩

/-- Witness for `c8_unclustered_nonincreasing_amended`: the FULL pass on
the one-molecule instance does not grow the count. -/
theorem c8_unclustered_nonincreasing_amended_witness :
    (neighbor_cluster_pass oReject .full 1
      [(0, ⟨0, 0, 0⟩)] [(⟨0, 0, 0⟩, [0])] []).unclusteredBlocks.length ≤ 1 :=
  c8_unclustered_nonincreasing_amended oReject .full 1
    [(0, ⟨0, 0, 0⟩)] [(⟨0, 0, 0⟩, [0])] [] (Or.inl rfl)

/-- C9: a molecule (with at least one valid atom) left unclustered after
all reconstruction passes makes the atom-to-cluster walk of
`BasicMinDisturbance::legalize` hit `VTR_ASSERT(cluser_id.is_valid())`,
terminating the run before any output is produced — there is no
partial-result mode. -/
theorem c9_unclustered_molecule_fatal :
    ∀ (atomCluster : Nat → Option ClusterId) (mols : List (List Nat))
      (m : List Nat),
    m ∈ mols → m ≠ [] → (∀ a ∈ m, atomCluster a = none) →
    legalizeClusterCheck atomCluster mols = .error assertMsg := by
  intro f mols m hm hne hall
  obtain ⟨a, ha⟩ : ∃ a, a ∈ m := by
    cases m with
    | nil => exact absurd rfl hne
    | cons x xs => exact ⟨x, List.mem_cons_self x xs⟩
  exact atomToLegalizationMap_error f (mols.flatMap id) a
    (List.mem_flatMap.mpr ⟨m, hm, ha⟩) (hall a ha)

/-- Witness for `c9_unclustered_molecule_fatal`: one single-atom molecule
with no cluster aborts the check. -/
theorem c9_unclustered_molecule_fatal_witness :
    legalizeClusterCheck (fun _ => none) [[0]] = .error assertMsg :=
  c9_unclustered_molecule_fatal (fun _ => none) [[0]] [0]
    (List.mem_cons_self [0] []) (by decide) (fun _ _ => rfl)

end VprLegalizer
